import Mathlib

/-!
Verification of the GTNHIssueHelper crash-report extraction and diagnostic
engine (src/entrypoint.py) against its natural-language specification.

The Python code is shallowly embedded: text is `List Char`, Python string
operations (`find`, `strip`, `splitlines`, slicing, substring containment)
are modelled as executable Lean functions with CPython semantics, the regular
expressions appearing in the source are compiled by hand into deterministic
scanning functions that implement the greedy-with-backtracking behaviour of
the specific patterns used, and the external HTTP fetch and the official
mod-list resolver are passed in as function parameters.
-/

instance {ε α : Type} [DecidableEq ε] [DecidableEq α] : DecidableEq (Except ε α)
  | .error a, .error b =>
    if h : a = b then .isTrue (by rw [h])
    else .isFalse (fun hh => h (by injection hh))
  | .error _, .ok _ => .isFalse (fun hh => Except.noConfusion hh)
  | .ok _, .error _ => .isFalse (fun hh => Except.noConfusion hh)
  | .ok a, .ok b =>
    if h : a = b then .isTrue (by rw [h])
    else .isFalse (fun hh => h (by injection hh))

/-- Convert a string literal to the character-list representation used by the
embedding. -/
def str (s : String) : List Char := s.data

/-- The characters matched by CPython's regex class backslash-s and stripped
by str.strip (ASCII range). -/
def pyIsSpace (c : Char) : Bool :=
  c = ' ' || c = '\t' || c = '\n' || c = '\r' || c = '\x0b' || c = '\x0c'

/-- Python str.lower restricted to the per-character case mapping. -/
def pyLower (l : List Char) : List Char := l.map Char.toLower

/-- Python str.strip(): remove leading and trailing whitespace. -/
def pyStrip (l : List Char) : List Char :=
  ((l.dropWhile pyIsSpace).reverse.dropWhile pyIsSpace).reverse

/-- Index of the first occurrence of `sub` in the list, if any
(Python str.find relative to the scanned suffix). -/
def subIdx (sub : List Char) : List Char → Option Nat
  | [] => if sub.isPrefixOf ([] : List Char) then some 0 else none
  | c :: t =>
    if sub.isPrefixOf (c :: t) then some 0
    else (subIdx sub t).map (· + 1)

/-- Python `sub in s` substring containment. -/
def containsSub (l sub : List Char) : Bool := (subIdx sub l).isSome

/-- Python s.find(sub, start): smallest absolute index at or after `start`
where `sub` occurs, -1 when there is none; a negative `start` counts from the
end and is clamped at 0. -/
def pyFind (l sub : List Char) (start : Int) : Int :=
  let st : Nat := (if start < 0 then max ((l.length : Int) + start) 0 else start).toNat
  match subIdx sub (l.drop st) with
  | none => -1
  | some k => ((st + k : Nat) : Int)

/-- Python slice s[a:b] with clamping of out-of-range and negative bounds. -/
def pySlice (l : List Char) (a b : Int) : List Char :=
  let n : Int := l.length
  let a2 : Nat := (if a < 0 then max (n + a) 0 else min a n).toNat
  let b2 : Nat := (if b < 0 then max (n + b) 0 else min b n).toNat
  (l.take b2).drop a2

/-- Python str.splitlines() on the line endings LF, CRLF and CR: a trailing
line terminator does not produce a final empty line. -/
def splitlinesAux : List Char → List Char → List (List Char)
  | [], acc => if acc.isEmpty then [] else [acc.reverse]
  | '\r' :: '\n' :: t, acc => acc.reverse :: splitlinesAux t []
  | '\r' :: t, acc => acc.reverse :: splitlinesAux t []
  | '\n' :: t, acc => acc.reverse :: splitlinesAux t []
  | c :: t, acc => splitlinesAux t (c :: acc)

/-- Python str.splitlines(). -/
def splitlines (l : List Char) : List (List Char) := splitlinesAux l []

/-- Python str.split() with no separator: split on whitespace runs, dropping
empty fields. -/
def pySplitWsAux : List Char → List Char → List (List Char)
  | [], acc => if acc.isEmpty then [] else [acc.reverse]
  | c :: t, acc =>
    if pyIsSpace c then
      if acc.isEmpty then pySplitWsAux t []
      else acc.reverse :: pySplitWsAux t []
    else pySplitWsAux t (c :: acc)

/-- Python str.split() with no separator. -/
def pySplitWs (l : List Char) : List (List Char) := pySplitWsAux l []

/-- First-occurrence deduplication: the iteration order of the keys of a
Python dict built by repeated insertion. -/
def dedupFirstAux (seen : List (List Char)) : List (List Char) → List (List Char)
  | [] => []
  | a :: t =>
    if seen.contains a then dedupFirstAux seen t
    else a :: dedupFirstAux (a :: seen) t

/-- Keep the first occurrence of every element, preserving order. -/
def dedupFirst (l : List (List Char)) : List (List Char) := dedupFirstAux [] l

/-- Largest index `k < n` satisfying `p`, if any. -/
def lastIdxBelow (n : Nat) (p : Nat → Bool) : Option Nat :=
  (List.range n).reverse.find? p

/-- The logical side of a report, from the external gtnh.defs enumeration
(only the members used by the program are modelled). -/
inductive Side where
  | CLIENT
  | CLIENT_JAVA9
  | SERVER
  | SERVER_JAVA9
  | BOTH
deriving DecidableEq, Repr

/-- The mutable attribute state of one CrashReport object: the constructor
stores either an eager text or a fetch function, and the content accessor
reads them.  fetch_calls instruments the number of invocations of the
external fetch function. -/
structure CrashReport where
  url : List Char
  content_func : Option (List Char → List Char)
  content_val : Option (List Char)
  fetch_calls : Nat

namespace CrashReport

/-- CrashReport.__init__ with a plain string content. -/
def mk_eager (url content : List Char) : CrashReport :=
  { url := url, content_func := none, content_val := some content, fetch_calls := 0 }

/-- CrashReport.__init__ with a callable content. -/
def mk_lazy (url : List Char) (f : List Char → List Char) : CrashReport :=
  { url := url, content_func := some f, content_val := none, fetch_calls := 0 }

/-- The content property: when a fetch function is stored it is invoked and
its result assigned to the content attribute, which is then returned;
the fetch function itself is never removed. -/
def content_get (cr : CrashReport) : Option (List Char) × CrashReport :=
  match cr.content_func with
  | some f =>
    (some (f cr.url),
     { cr with content_val := some (f cr.url), fetch_calls := cr.fetch_calls + 1 })
  | none => (cr.content_val, cr)

end CrashReport

/-- One parsed line of the mod-state table. -/
structure InstalledMod where
  modid : List Char
  version : List Char
  modname : List Char
  filename : List Char
  errored : Bool
  disabled : Bool
deriving DecidableEq, Repr

/-- The named groups of the mod-state line regular expression. -/
structure ModLineMatch where
  status : List Char
  modid : List Char
  version : List Char
  modname : List Char
  filename : List Char
deriving DecidableEq, Repr

/-- Characters of the status-flag class in the mod-state line pattern. -/
def isStatusChar (c : Char) : Bool := (str "ULCHIJADE").contains c

/-- The first-character class of the modid group: anything except an opening
brace, a space or a tab. -/
def validModidStart (c : Char) : Bool := !(c = '{' || c = ' ' || c = '\t')

/-- True when the list has no line feed (the dot of the pattern does not
match one). -/
def noNewline (l : List Char) : Bool := !(l.contains '\n')

/-- Full match of one mod-state line against the pattern
status:[ULCHIJADE]+, whitespace, modid (no leading brace/space/tab, then up
to the first brace), a braced version, a space, a bracketed modname, a space
and a parenthesised filename, implementing the greedy-with-backtracking
choices of the regex deterministically: the status and whitespace runs are
maximal (whitespace may donate trailing non-space-non-tab characters back to
the modid when a brace follows), the version stops at the first closing
brace, and the modname takes the last feasible bracket-paren separator so
that a non-empty filename ends at the final closing parenthesis. -/
def matchModLine (L : List Char) : Option ModLineMatch :=
  let status := L.takeWhile isStatusChar
  if status.isEmpty then none else
  let R1 := L.drop status.length
  let k := (R1.takeWhile pyIsSpace).length
  if k = 0 then none else
  match lastIdxBelow (min (k + 1) R1.length)
      (fun j => decide (1 ≤ j) && validModidStart (R1.getD j ' ')) with
  | none => none
  | some j =>
    match subIdx ['{'] (R1.drop j) with
    | none => none
    | some di =>
      let modid := (R1.drop j).take di
      let R2 := R1.drop (j + di + 1)
      let v := R2.takeWhile (fun c => !(c = '}'))
      if v.isEmpty then none else
      if R2.length ≤ v.length then none else
      match R2.drop (v.length + 1) with
      | ' ' :: '[' :: T =>
        if !(T.getLastD ' ' = ')') then none else
        match lastIdxBelow (T.length - 4)
            (fun p => decide (1 ≤ p) && (str "] (").isPrefixOf (T.drop p)
              && noNewline (T.take p) && noNewline ((T.drop (p + 3)).dropLast)) with
        | none => none
        | some p =>
          some { status := status, modid := modid, version := v,
                 modname := T.take p, filename := (T.drop (p + 3)).dropLast }
      | _ => none

namespace InstalledMod

/-- InstalledMod.parse: a ValueError on a non-matching line is the error
case, the loader pseudo-mods FML and Forge and unknown coremods in the
generic loader jar produce no record, and known coremods have their filename
reconstructed from the per-modid rule table. -/
def parse (line : List Char) : Except (List Char) (Option InstalledMod) :=
  match matchModLine line with
  | none => .error (str "invalid line: " ++ line)
  | some m =>
    if m.modid = str "FML" || m.modid = str "Forge" then .ok none
    else if m.filename = str "minecraft.jar" then
      if m.modid = str "CodeChickenCore" || m.modid = str "PlayerAPI" then
        .ok (some { modid := m.modid, version := m.version, modname := m.modname,
                    filename := m.modid ++ str "-" ++ m.version ++ str ".jar",
                    errored := m.status.contains 'E', disabled := m.status.contains 'D' })
      else .ok none
    else
      .ok (some { modid := m.modid, version := m.version, modname := m.modname,
                  filename := m.filename,
                  errored := m.status.contains 'E', disabled := m.status.contains 'D' })

end InstalledMod

/-- The loop of CrashReport.main_stack_trace over the lines after the fixed
header: collect stripped lines until the first blank one. -/
def traceScan : List (List Char) → List (List Char)
  | [] => []
  | l :: ls => if (pyStrip l).isEmpty then [] else pyStrip l :: traceScan ls

namespace CrashReport

/-- CrashReport.main_stack_trace as a function of the content. -/
def main_stack_trace (content : List Char) : List (List Char) :=
  traceScan ((splitlines content).drop 6)

/-- CrashReport.truncated as a function of the content. -/
def truncated (content : List Char) : Bool :=
  !(containsSub content (str "Is Modded"))

end CrashReport

/-- First match of the Java-version pattern: the literal "Java Version: ",
then a maximal run of non-whitespace characters which after backtracking must
still provide a comma, the capture being everything before the last comma of
the run (at least one character).  On failure the scan resumes one character
later, as re.findall does. -/
def javaVersionScan : List Char → Option (List Char)
  | [] => none
  | c :: t =>
    if (str "Java Version: ").isPrefixOf (c :: t) then
      let R := ((c :: t).drop 14).takeWhile (fun ch => !(pyIsSpace ch))
      match lastIdxBelow R.length (fun p => decide (1 ≤ p) && (R.getD p ' ' = ',')) with
      | some p => some (R.take p)
      | none => javaVersionScan t
    else javaVersionScan t

namespace CrashReport

/-- CrashReport.java_version: the first capture of the Java-version pattern,
stripped, if the pattern occurs. -/
def java_version (content : List Char) : Option (List Char) :=
  (javaVersionScan content).map pyStrip

/-- CrashReport.is_java8. -/
def is_java8 (content : List Char) : Bool :=
  match java_version content with
  | some v => (str "1.8.0").isPrefixOf v
  | none => false

/-- CrashReport.is_recent_java. -/
def is_recent_java (content : List Char) : Bool :=
  match java_version content with
  | some v => !((str "1.").isPrefixOf v)
  | none => false

/-- CrashReport.side as a function of the content: the client marker is
checked before the server marker, each refined by the Java generation, with
the undetermined fallback BOTH. -/
def side (content : List Char) : Side :=
  if containsSub content (str "map_client.txt") then
    if is_recent_java content then Side.CLIENT_JAVA9 else Side.CLIENT
  else if containsSub content (str "map_server.txt") then
    if is_recent_java content then Side.SERVER_JAVA9 else Side.SERVER
  else Side.BOTH

end CrashReport

/-- The loop of CrashReport.mod_list: a line containing "States" re-arms the
capture flag and is itself never parsed; afterwards a line that fails the
grammar ends the scan, a no-record line is skipped, and records are kept in
appearance order. -/
def modListScan : List (List Char) → Bool → List InstalledMod
  | [], _ => []
  | l :: ls, inList =>
    if containsSub l (str "States") then modListScan ls true
    else if inList then
      match InstalledMod.parse (pyStrip l) with
      | .error _ => []
      | .ok none => modListScan ls true
      | .ok (some m) => m :: modListScan ls true
    else modListScan ls false

namespace CrashReport

/-- CrashReport.mod_list as a function of the content. -/
def mod_list (content : List Char) : List InstalledMod :=
  modListScan (splitlines content) false

end CrashReport

/-- The components of urllib.parse.urlparse used by the program. -/
structure UrlParts where
  scheme : List Char
  netloc : List Char
  path : List Char
  query : List Char
deriving DecidableEq, Repr

/-- Characters allowed in a URL scheme. -/
def schemeChar (c : Char) : Bool := c.isAlpha || c.isDigit || c = '+' || c = '-' || c = '.'

/-- urllib.parse.urlparse restricted to the fields the program reads: an
alphabetic-led scheme before the first colon, a netloc after a double slash
up to the first slash, question mark or hash, then the fragment is split off
at the first hash and the query at the first question mark. -/
def urlparse (u : List Char) : UrlParts :=
  let (scheme, rest) :=
    match subIdx [':'] u with
    | some i =>
      if 0 < i && (u.take i).all schemeChar && (u.headD ' ').isAlpha then
        (pyLower (u.take i), u.drop (i + 1))
      else ([], u)
    | none => ([], u)
  let (netloc, rest2) :=
    if (str "//").isPrefixOf rest then
      let r := rest.drop 2
      let n := r.takeWhile (fun c => !(c = '/' || c = '?' || c = '#'))
      (n, r.drop n.length)
    else ([], rest)
  let beforeFrag :=
    match subIdx ['#'] rest2 with
    | some i => rest2.take i
    | none => rest2
  let (path, query) :=
    match subIdx ['?'] beforeFrag with
    | some i => (beforeFrag.take i, beforeFrag.drop (i + 1))
    | none => (beforeFrag, [])
  { scheme := scheme, netloc := netloc, path := path, query := query }

/-- The hostname property of a parse result: the netloc after any userinfo
(after the last at sign) and before any port colon, lowercased; the empty
list stands for the None of an absent hostname. -/
def UrlParts.hostname (p : UrlParts) : List Char :=
  let hostinfo :=
    match lastIdxBelow p.netloc.length (fun i => p.netloc.getD i ' ' = '@') with
    | some i => p.netloc.drop (i + 1)
    | none => p.netloc
  pyLower (hostinfo.takeWhile (fun c => !(c = ':')))

/-- Full match of a path against the modpack files pattern: a slash, one
non-empty slash-free segment, the literal repository files infix, and a
non-empty remainder without a line feed. -/
def ghFilesPathMatch (path : List Char) : Bool :=
  match path with
  | '/' :: rest =>
    let seg := rest.takeWhile (fun c => !(c = '/'))
    let lit := str "/GT-New-Horizons-Modpack/files/"
    !seg.isEmpty &&
      (let r2 := rest.drop seg.length
       lit.isPrefixOf r2 &&
         (let tail := r2.drop lit.length
          !tail.isEmpty && noNewline tail))
  | _ => false

/-- Full match of a path against the paste.ee pattern: the literal p segment,
one non-empty slash-free id, a slash and a non-empty remainder without a
line feed. -/
def pasteEePathMatch (path : List Char) : Bool :=
  if (str "/p/").isPrefixOf path then
    let rest := path.drop 3
    let seg := rest.takeWhile (fun c => !(c = '/'))
    !seg.isEmpty &&
      (match rest.drop seg.length with
       | '/' :: tail => !tail.isEmpty && noNewline tail
       | _ => false)
  else false

/-- The outcome of the per-URL host whitelist in Helper._search_section. -/
inductive UrlAction where
  | download (u : List Char)
  | suspicious
  | gistRejected
  | ubuntuRefusal
  | unknown
deriving DecidableEq, Repr

/-- The host whitelist of Helper._search_section: each recognised host
either yields a raw download URL or is flagged; anything else is unknown. -/
def classifyUrl (url : List Char) : UrlAction :=
  let p := urlparse url
  let h := p.hostname
  if h = str "pastebin.com" then
    if !p.query.isEmpty || p.path.isEmpty || (p.path.drop 1).contains '/' then .suspicious
    else .download (p.scheme ++ str "://" ++ h ++ str "/raw" ++ p.path)
  else if h = str "github.com" && ghFilesPathMatch p.path then
    if !p.query.isEmpty then .suspicious
    else .download url
  else if h = str "gist.github.com" then .gistRejected
  else if h = str "paste.ee" then
    if !p.query.isEmpty || !pasteEePathMatch p.path then .suspicious
    else .download (p.scheme ++ str "://" ++ h ++ str "/d" ++ p.path.drop 2)
  else if h = str "mclo.gs" then
    if !p.query.isEmpty || p.path.isEmpty || (p.path.drop 1).contains '/' then .suspicious
    else .download (str "https://api.mclo.gs/1/raw" ++ p.path)
  else if h = str "paste.ubuntu.com" then .ubuntuRefusal
  else .unknown

/-- The findall of the URL pattern over a section: at each position the bare
alternative (the https literal followed by at least one non-whitespace
character, taken greedily) is tried first, then the markdown alternative (a
bracketed non-empty label, a parenthesised https target whose greedy
non-whitespace run backtracks to the last feasible closing parenthesis);
after a match the scan resumes past it, otherwise one character later.  Each
match contributes its sole non-empty group.  The skip counter carries the
remaining length of the previous match so that the recursion advances one
character at a time. -/
def extractUrlsAux : List Char → Nat → List (List Char)
  | [], _ => []
  | _ :: t, Nat.succ skip => extractUrlsAux t skip
  | c :: t, 0 =>
    if (str "https://").isPrefixOf (c :: t) then
      let tok := (c :: t).takeWhile (fun ch => !(pyIsSpace ch))
      if 8 < tok.length then tok :: extractUrlsAux t (tok.length - 1)
      else extractUrlsAux t 0
    else if c = '[' then
      let inner := t.takeWhile (fun ch => !(ch = ']'))
      match t.drop inner.length with
      | ']' :: '(' :: r2 =>
        if inner.isEmpty then extractUrlsAux t 0
        else if (str "https://").isPrefixOf r2 then
          let run := (r2.drop 8).takeWhile (fun ch => !(pyIsSpace ch))
          match lastIdxBelow run.length (fun p => decide (1 ≤ p) && (run.getD p ' ' = ')')) with
          | some p =>
            (str "https://" ++ run.take p) :: extractUrlsAux t (inner.length + p + 11)
          | none => extractUrlsAux t 0
        else extractUrlsAux t 0
      | _ => extractUrlsAux t 0
    else extractUrlsAux t 0

/-- All URLs matched in one section, in scan order. -/
def extractUrls (l : List Char) : List (List Char) := extractUrlsAux l 0

/-- The literal marker opening every crash report. -/
def inlineMarker : List Char := str "---- Minecraft Crash Report ----"

/-- The state of the inline-scan while loop of Helper._search_section. -/
structure InlineState where
  istart : Int
  ret : List CrashReport

/-- One iteration of the inline-scan while loop: locate the next Is Modded
occurrence from istart, extend to the following line feed (or the end of the
text), append the inline report labelled by the current count, and re-find
the marker starting at istart. -/
def inlineStep (cr_data : List Char) (st : InlineState) : InlineState :=
  let moddedline := pyFind cr_data (str "Is Modded") st.istart
  let iend0 := pyFind cr_data (str "\n") moddedline
  let iend : Int := if iend0 = -1 then (cr_data.length : Int) else iend0
  let report := CrashReport.mk_eager
      (str "inline " ++ Nat.toDigits 10 (st.ret.length + 1))
      (pySlice cr_data st.istart iend)
  { istart := pyFind cr_data inlineMarker st.istart, ret := st.ret ++ [report] }

/-- The inline-scan while loop with explicit fuel: the loop exits only when
istart is -1, and exhausted fuel (the none outcome) witnesses that it has not
terminated within that many iterations. -/
def inlineLoop (cr_data : List Char) : Nat → InlineState → Option (List CrashReport)
  | 0, st => if st.istart = -1 then some st.ret else none
  | n + 1, st =>
    if st.istart = -1 then some st.ret
    else inlineLoop cr_data n (inlineStep cr_data st)

/-- The observable state accumulated by the link scan of one section:
the reports list, the trace of download URLs passed to the external fetch,
the lines appended to the shared output, and the per-section seen-URL set
(as a list in first-insertion order). -/
structure SearchAcc where
  reports : List CrashReport
  fetched : List (List Char)
  out : List (List Char)
  all_urls : List (List Char)

/-- Processing of one extracted URL by Helper._search_section: a URL already
seen in this section is skipped; otherwise it is remembered and classified;
a resolved download URL is fetched (the fetch trace records the call), a
failed fetch appends a failure line, content starting with the crash-report
marker becomes an eagerly-filled report, and any other content (including a
recognised log file, which is only logged) is dropped. -/
def linkScanStep (fetch : List Char → Option (List Char)) (acc : SearchAcc)
    (url : List Char) : SearchAcc :=
  if acc.all_urls.contains url then acc
  else
    let acc1 := { acc with all_urls := acc.all_urls ++ [url] }
    match classifyUrl url with
    | .suspicious => acc1
    | .gistRejected => acc1
    | .ubuntuRefusal =>
      { acc1 with out := acc1.out ++ [str "Please refrain from posting crash reports to paste.ubuntu.com. They might require login to be viewed and our automated analysis tool (like this) cannot read their content."] }
    | .unknown => acc1
    | .download download_url =>
      let acc2 := { acc1 with fetched := acc1.fetched ++ [download_url] }
      match fetch download_url with
      | none =>
        { acc2 with out := acc2.out ++ [str "Failed to download url: " ++ download_url ++ str ". Original file link: " ++ url] }
      | some content =>
        if inlineMarker.isPrefixOf content then
          { acc2 with reports := acc2.reports ++ [CrashReport.mk_eager download_url content] }
        else acc2

/-- The link scan of one section over the extracted URLs in order. -/
def linkScan (fetch : List Char → Option (List Char)) :
    List (List Char) → SearchAcc → SearchAcc
  | [], acc => acc
  | u :: us, acc => linkScan fetch us (linkScanStep fetch acc u)

namespace Helper

/-- Helper._search_section on the text of one section: the inline scan runs
first (only when both the crash-report marker and Is Modded occur), then the
link scan; none reports that the inline while loop did not terminate within
the given fuel. -/
def search_section (fuel : Nat) (fetch : List Char → Option (List Char))
    (cr_data : List Char) : Option SearchAcc :=
  let inl : Option (List CrashReport) :=
    if containsSub cr_data inlineMarker && containsSub cr_data (str "Is Modded") then
      inlineLoop cr_data fuel { istart := pyFind cr_data inlineMarker 0, ret := [] }
    else some []
  match inl with
  | none => none
  | some reps =>
    some (linkScan fetch (extractUrls cr_data)
      { reports := reps, fetched := [], out := [], all_urls := [] })

end Helper

/-- Lookup of a key in the issue-form mapping; none is a KeyError. -/
def lookupKey (fd : List (List Char × List Char)) (k : List Char) : Option (List Char) :=
  (fd.find? (fun kv => decide (kv.1 = k))).map Prod.snd

namespace Helper

/-- Helper.crash_reports: every configured section is searched in order and
the reports, fetch traces and output lines are concatenated; the seen-URL
set is local to each section.  The error cases model a KeyError on a missing
section and a non-terminating inline scan. -/
def crash_reports (fuel : Nat) (fetch : List Char → Option (List Char))
    (fd : List (List Char × List Char)) :
    List (List Char) → Except (List Char) (List CrashReport × List (List Char) × List (List Char))
  | [] => .ok ([], [], [])
  | sec :: rest =>
    match lookupKey fd sec with
    | none => .error (str "KeyError")
    | some cr_data =>
      match search_section fuel fetch cr_data with
      | none => .error (str "inline scan does not terminate")
      | some acc =>
        match crash_reports fuel fetch fd rest with
        | .error e => .error e
        | .ok (rs, fs, os) => .ok (acc.reports ++ rs, acc.fetched ++ fs, acc.out ++ os)

end Helper

/-- One entry of the externally resolved official mod list: the program reads
the modname of the mod metadata and the filename of the mod version. -/
structure OfficialModEntry where
  modname : List Char
  filename : List Char
deriving DecidableEq, Repr

/-- The external resolver get_official_mods: a function of the normalized
version key and the side that may fail. -/
def OfficialResolver : Type :=
  List Char → Side → Except (List Char) (List OfficialModEntry)

namespace Helper

/-- Helper.get_mod_list: the pack-version form field is taken, its first
whitespace-delimited token stripped and lowercased, and the resolver called;
every failure (the missing field, an empty split, a resolver error) is
swallowed into an empty list. -/
def get_mod_list (gom : OfficialResolver) (fd : List (List Char × List Char))
    (side : Side) : List OfficialModEntry :=
  match lookupKey fd (str "Your Pack Version") with
  | none => []
  | some v =>
    match pySplitWs v with
    | [] => []
    | tok :: _ =>
      match gom (pyLower (pyStrip tok)) side with
      | .error _ => []
      | .ok mods => mods

/-- Helper.get_mod_filename_set: the set of official filenames, as a list in
first-occurrence order standing for the Python set. -/
def get_mod_filename_set (gom : OfficialResolver) (fd : List (List Char × List Char))
    (side : Side) : List (List Char) :=
  dedupFirst ((get_mod_list gom fd side).map (·.filename))

end Helper

/-- Join with a line feed, as the newline join of the stack trace. -/
def joinNL : List (List Char) → List Char
  | [] => []
  | [l] => l
  | l :: ls => l ++ '\n' :: joinNL ls

/-- The body of the missing-mods loop of Helper.analyze: filenames whose
lowercasing contains healer or codechickenlib are always skipped, filenames
whose lowercasing contains lwjgl3ify are skipped when the Java version is not
recent, and every other missing filename yields one bullet line. -/
def missingLines (is_recent : Bool) (missing : List (List Char)) : List (List Char) :=
  missing.filterMap (fun filename =>
    if containsSub (pyLower filename) (str "healer")
        || containsSub (pyLower filename) (str "codechickenlib") then none
    else if !is_recent && containsSub (pyLower filename) (str "lwjgl3ify") then none
    else some (str "* " ++ filename))

/-- The value of the Python dict from filename to record built over the mod
list: the last record with the given filename wins. -/
def lookupLastModname (mods : List InstalledMod) (fn : List Char) : List Char :=
  match mods.reverse.find? (fun m => decide (m.filename = fn)) with
  | some m => m.modname
  | none => []

namespace Helper

/-- Helper.analyze on one report (its URL and its content), with the
external resolver and the form data as parameters, returning the lines it
appends to the output, or the error it raises.  Python set difference is
modelled on deduplicated filename lists in first-occurrence order; subscript
zero of an empty stack trace is the IndexError case. -/
def analyze (gom : OfficialResolver) (fd : List (List Char × List Char))
    (url content : List Char) : Except (List Char) (List (List Char)) :=
  let out0 := [str "# Primitive Automated Analysis of Crash Report " ++ url]
  let out1 :=
    if CrashReport.truncated content then
      out0 ++ [str "CRASH REPORT IS TRUNCATED. This will not help to get your problem fixed!!!"]
    else out0
  let tr := CrashReport.main_stack_trace content
  if tr.take 2 = [str "java.lang.NullPointerException",
      str "at cpw.mods.fml.common.network.internal.FMLProxyPacket.func_148833_a(FMLProxyPacket.java:101)"] then
    .ok (out1 ++ [str "This crash report is near useless. Try post fml-client-latest.log instead."])
  else if tr.any (fun e => containsSub e (str "ChunkIOProvider")) then
    .ok (out1 ++ [str "This crash report suggests world corruption. Try restore from a backup."])
  else
    match tr with
    | [] => .error (str "IndexError: list index out of range")
    | first :: _ =>
      let out2 :=
        if first = str "java.lang.RuntimeException: Chunk build failed" then
          out1 ++ [str "Possibly an Angelica problem. Try remove this mod and see if this fixes your problem."]
        else out1
      let out3 := out2 ++ [str "<details><summary>Stacktrace</summary>" ++ joinNL tr ++ str "</details>"]
      if (get_mod_list gom fd (CrashReport.side content)).isEmpty then .ok out3
      else
        let cr_mods_set := dedupFirst ((CrashReport.mod_list content).map (·.filename))
        let base_mods_set := get_mod_filename_set gom fd (CrashReport.side content)
        let missing := base_mods_set.filter (fun f => !(cr_mods_set.contains f))
        let added := cr_mods_set.filter (fun f => !(base_mods_set.contains f))
        let out4 :=
          if missing.isEmpty then out3
          else out3 ++ [str "<details><summary>Missing mods</summary>"]
            ++ missingLines (CrashReport.is_recent_java content) missing
            ++ [str "</details>"]
        let out5 :=
          if added.isEmpty then out4
          else out4 ++ [str "<details><summary>Added mods</summary>"]
            ++ added.map (fun f =>
                str "* " ++ f ++ str " (" ++ lookupLastModname (CrashReport.mod_list content) f ++ str ")")
            ++ [str "</details>"]
        .ok out5

end Helper

/-- Modelled from the spec: the analysis of one report up to and including
the stack-trace detail block (DiagnosticEngine steps 1 to 5), which is the
whole output when the resolved official list is empty and the diff steps are
skipped. -/
def analyzeUpToStackTrace (url content : List Char) : List (List Char) :=
  let out0 := [str "# Primitive Automated Analysis of Crash Report " ++ url]
  let out1 :=
    if CrashReport.truncated content then
      out0 ++ [str "CRASH REPORT IS TRUNCATED. This will not help to get your problem fixed!!!"]
    else out0
  let tr := CrashReport.main_stack_trace content
  if tr.take 2 = [str "java.lang.NullPointerException",
      str "at cpw.mods.fml.common.network.internal.FMLProxyPacket.func_148833_a(FMLProxyPacket.java:101)"] then
    out1 ++ [str "This crash report is near useless. Try post fml-client-latest.log instead."]
  else if tr.any (fun e => containsSub e (str "ChunkIOProvider")) then
    out1 ++ [str "This crash report suggests world corruption. Try restore from a backup."]
  else
    let out2 :=
      if tr.headD [] = str "java.lang.RuntimeException: Chunk build failed" then
        out1 ++ [str "Possibly an Angelica problem. Try remove this mod and see if this fixes your problem."]
      else out1
    out2 ++ [str "<details><summary>Stacktrace</summary>" ++ joinNL tr ++ str "</details>"]

/-- The tail of the table scan, modelled from the spec as amended: after the
first line containing States, a further States-containing line is skipped
without being parsed, any other line failing the grammar ends the table, a
no-record line is skipped, and records are kept in order. -/
def modListCollect : List (List Char) → List InstalledMod
  | [] => []
  | l :: ls =>
    if containsSub l (str "States") then modListCollect ls
    else
      match InstalledMod.parse (pyStrip l) with
      | .error _ => []
      | .ok none => modListCollect ls
      | .ok (some m) => m :: modListCollect ls

/-- Modelled from the spec as amended: capture begins after the first line
containing States and the remaining lines are scanned by modListCollect. -/
def mod_list_spec (content : List Char) : List InstalledMod :=
  match (splitlines content).dropWhile (fun l => !(containsSub l (str "States"))) with
  | [] => []
  | _ :: rest => modListCollect rest

/-! Concrete inputs used by the claim theorems. -/

/-- A fetch stub serving one pastebin raw URL with crash-report content. -/
def c2_fetch : List Char → Option (List Char) :=
  fun u =>
    if u = str "https://pastebin.com/raw/abc123" then
      some (str "---- Minecraft Crash Report ----\nrest")
    else none

/-- A submission whose two scanned sections contain the same pastebin URL. -/
def c2_formdata : List (List Char × List Char) :=
  [(str "Crash Report", str "see https://pastebin.com/abc123"),
   (str "Logs", str "again https://pastebin.com/abc123")]

/-- A fetch function for a lazily constructed report. -/
def c4_fetch_func : List Char → List Char := fun _ => str "the fetched report text"

/-- A report content without either side marker but with a recent Java
version, an official list containing only the lwjgl3ify jar, and a form with
a resolvable pack version. -/
def c8_content : List Char :=
  str "h1\nh2\nh3\nh4\nh5\nh6\nsome.Exception\n\nIs Modded: yes\nJava Version: 17.0.1,\n"

/-- An official resolver answering only for version 1.0 on the undetermined
side. -/
def c8_resolver : OfficialResolver := fun v s =>
  if v = str "1.0" && s = Side.BOTH then
    .ok [{ modname := str "Lwjgl3ify", filename := str "lwjgl3ify-2.0.jar" }]
  else .error (str "no manifest")

/-- Form data with a plain pack version. -/
def c8_formdata : List (List Char × List Char) :=
  [(str "Your Pack Version", str "1.0")]

/-! Helper lemmas about the substring search. -/

theorem subIdx_of_isPrefixOf {sub l : List Char} (h : sub.isPrefixOf l = true) :
    subIdx sub l = some 0 := by
  cases l <;> simp [subIdx, h]

theorem subIdx_drop_isPrefixOf {sub l : List Char} :
    ∀ {k : Nat}, subIdx sub l = some k → sub.isPrefixOf (l.drop k) = true := by
  induction l with
  | nil =>
    intro k h
    unfold subIdx at h
    split at h
    · cases h
      rename_i hp
      simpa using hp
    · exact absurd h (by simp)
  | cons c t ih =>
    intro k h
    unfold subIdx at h
    split at h
    · cases h
      rename_i hp
      simpa using hp
    · cases hk : subIdx sub t with
      | none => rw [hk] at h; simp at h
      | some k0 =>
        rw [hk] at h
        simp only [Option.map_some'] at h
        cases h
        simpa using ih hk

theorem pyFind_at_occurrence {l sub : List Char} {i : Nat}
    (h : sub.isPrefixOf (l.drop i) = true) : pyFind l sub (i : Nat) = (i : Nat) := by
  have h0 : ¬ ((i : Int) < 0) := by omega
  simp [pyFind, h0, subIdx_of_isPrefixOf h]

theorem pyFind_zero_some {l sub : List Char} {k : Nat}
    (h : subIdx sub l = some k) : pyFind l sub 0 = (k : Nat) := by
  unfold pyFind
  simp [h]

theorem inlineStep_istart {cr_data : List Char} {i : Nat} (st : InlineState)
    (hst : st.istart = (i : Nat))
    (h : inlineMarker.isPrefixOf (cr_data.drop i) = true) :
    (inlineStep cr_data st).istart = (i : Nat) := by
  simp only [inlineStep, hst]
  exact pyFind_at_occurrence h

theorem inlineLoop_none {cr_data : List Char} {i : Nat}
    (h : inlineMarker.isPrefixOf (cr_data.drop i) = true) :
    ∀ (fuel : Nat) (st : InlineState), st.istart = (i : Nat) →
      inlineLoop cr_data fuel st = none := by
  intro fuel
  induction fuel with
  | zero =>
    intro st hst
    unfold inlineLoop
    rw [hst]
    have hne : ¬ ((i : Int) = -1) := by omega
    simp [hne]
  | succ n ih =>
    intro st hst
    unfold inlineLoop
    rw [hst]
    have hne : ¬ ((i : Int) = -1) := by omega
    simp only [hne, if_false]
    exact ih (inlineStep cr_data st) (inlineStep_istart st hst h)

/-- C1: the claim states that the inline scan terminates and yields one
source per marker occurrence; in the code the loop variable is re-assigned
by searching for the marker from its own current position, which finds the
same occurrence again, so whenever the guard admits the loop (both the
crash-report marker and Is Modded occur in the section) the loop never
terminates, for any amount of fuel. -/
theorem c1_inline_scan_never_terminates (cr_data : List Char)
    (hmark : containsSub cr_data inlineMarker = true)
    (hmod : containsSub cr_data (str "Is Modded") = true)
    (fuel : Nat) (fetch : List Char → Option (List Char)) :
    Helper.search_section fuel fetch cr_data = none := by
  unfold Helper.search_section
  simp only [hmark, hmod, Bool.and_self, if_true]
  have hidx : ∃ k, subIdx inlineMarker cr_data = some k := by
    have h2 := hmark
    unfold containsSub at h2
    exact Option.isSome_iff_exists.mp h2
  obtain ⟨k, hk⟩ := hidx
  have hpre := subIdx_drop_isPrefixOf hk
  have hfind : pyFind cr_data inlineMarker 0 = (k : Nat) := pyFind_zero_some hk
  rw [hfind]
  rw [inlineLoop_none hpre fuel _ rfl]

/-- C1 witness: a concrete section containing one inline crash report makes
the section scan diverge. -/
theorem c1_witness :
    Helper.search_section 9 (fun _ => none)
      (str "---- Minecraft Crash Report ----\nstack\nIs Modded: Probably not\n") = none :=
  c1_inline_scan_never_terminates _ (by decide) (by decide) 9 _

/-! Lemmas for the per-section URL deduplication. -/

theorem linkScanStep_skip (fetch : List Char → Option (List Char))
    (acc : SearchAcc) (u : List Char) (h : u ∈ acc.all_urls) :
    linkScanStep fetch acc u = acc := by
  unfold linkScanStep
  rw [if_pos (List.elem_eq_true_of_mem h)]

theorem linkScanStep_all_urls_of_not_mem (fetch : List Char → Option (List Char))
    (acc : SearchAcc) (u : List Char) (h : u ∉ acc.all_urls) :
    (linkScanStep fetch acc u).all_urls = acc.all_urls ++ [u] := by
  unfold linkScanStep
  rw [if_neg (fun hc => h (List.mem_of_elem_eq_true hc))]
  split <;> try rfl
  split <;> try rfl
  split <;> rfl

theorem linkScanStep_mem_self (fetch : List Char → Option (List Char))
    (acc : SearchAcc) (u : List Char) :
    u ∈ (linkScanStep fetch acc u).all_urls := by
  by_cases h : u ∈ acc.all_urls
  · rw [linkScanStep_skip fetch acc u h]; exact h
  · rw [linkScanStep_all_urls_of_not_mem fetch acc u h]
    exact List.mem_append_right _ (List.mem_singleton_self u)

theorem linkScanStep_mem_mono (fetch : List Char → Option (List Char))
    (acc : SearchAcc) (v u : List Char) (h : u ∈ acc.all_urls) :
    u ∈ (linkScanStep fetch acc v).all_urls := by
  by_cases hc : v ∈ acc.all_urls
  · rw [linkScanStep_skip fetch acc v hc]; exact h
  · rw [linkScanStep_all_urls_of_not_mem fetch acc v hc]
    exact List.mem_append_left _ h

theorem linkScan_mem_mono (fetch : List Char → Option (List Char))
    (us : List (List Char)) :
    ∀ (acc : SearchAcc) (u : List Char), u ∈ acc.all_urls →
      u ∈ (linkScan fetch us acc).all_urls := by
  induction us with
  | nil => intro acc u h; simpa [linkScan] using h
  | cons v rest ih =>
    intro acc u h
    unfold linkScan
    exact ih _ _ (linkScanStep_mem_mono fetch acc v u h)

/-- C2 counterexample: the same pastebin URL appearing in two different
scanned sections is fetched once per section (two fetch calls in the trace)
and yields two CrashReportSources, refuting the claimed one-fetch-per-run
deduplication. -/
theorem c2_counterexample :
    (Helper.crash_reports 3 c2_fetch c2_formdata [str "Crash Report", str "Logs"]).map
      (fun r => (r.2.1, r.1.map CrashReport.url)) =
    .ok ([str "https://pastebin.com/raw/abc123", str "https://pastebin.com/raw/abc123"],
         [str "https://pastebin.com/raw/abc123", str "https://pastebin.com/raw/abc123"]) := by
  rfl

/-- C2 as amended: deduplication is per section and keyed by the exact
original URL string, not the resolved download URL: within one section a URL
equal to an already-seen one is skipped outright (no classification, no
fetch), every processed URL enters the section seen set, and the seen set
only grows while the section is scanned. -/
theorem c2_dedup_per_section_by_original_url :
    (∀ (fetch : List Char → Option (List Char)) (u : List Char)
        (us : List (List Char)) (acc : SearchAcc),
        u ∈ acc.all_urls →
        linkScan fetch (u :: us) acc = linkScan fetch us acc)
    ∧ (∀ (fetch : List Char → Option (List Char)) (acc : SearchAcc) (u : List Char),
        u ∈ (linkScanStep fetch acc u).all_urls)
    ∧ (∀ (fetch : List Char → Option (List Char)) (us : List (List Char))
        (acc : SearchAcc) (u : List Char), u ∈ acc.all_urls →
        u ∈ (linkScan fetch us acc).all_urls) := by
  refine ⟨?_, linkScanStep_mem_self, linkScan_mem_mono⟩
  intro fetch u us acc h
  show linkScan fetch us (linkScanStep fetch acc u) = linkScan fetch us acc
  rw [linkScanStep_skip fetch acc u h]

/-- C2 witness: the amended statement applied at concrete values. -/
theorem c2_witness :
    (linkScan (fun _ => none) [str "https://a", str "https://b"]
        { reports := [], fetched := [], out := [], all_urls := [str "https://a"] } =
      linkScan (fun _ => none) [str "https://b"]
        { reports := [], fetched := [], out := [], all_urls := [str "https://a"] })
    ∧ (str "https://a") ∈ (linkScanStep (fun _ => none)
        { reports := [], fetched := [], out := [], all_urls := [] }
        (str "https://a")).all_urls
    ∧ (str "https://a") ∈ (linkScan (fun _ => none) [str "https://b"]
        { reports := [], fetched := [], out := [], all_urls := [str "https://a"] }).all_urls :=
  ⟨c2_dedup_per_section_by_original_url.1 _ _ _ _ (by decide),
   c2_dedup_per_section_by_original_url.2.1 _ _ _,
   c2_dedup_per_section_by_original_url.2.2 _ _ _ _ (by decide)⟩

/-- C3: the claim states that an empty stack trace is handled without
raising; in the code every report whose main stack trace is empty passes the
first two (slice-based, total) checks and then subscripts element zero of
the empty trace, raising an IndexError, whatever the resolver, the form data
and the URL are. -/
theorem c3_empty_trace_raises (gom : OfficialResolver)
    (fd : List (List Char × List Char)) (url content : List Char)
    (h : CrashReport.main_stack_trace content = []) :
    Helper.analyze gom fd url content =
      .error (str "IndexError: list index out of range") := by
  simp [Helper.analyze, h]

/-- C3 witness: a two-line content has an empty main stack trace and makes
analyze raise. -/
theorem c3_witness :
    Helper.analyze (fun _ _ => .ok []) [] (str "inline 1") (str "a\nb") =
      .error (str "IndexError: list index out of range") :=
  c3_empty_trace_raises _ _ _ _ (by decide)

/-- C4: the claim states that the lazy fetch function is invoked at most
once and later reads hit a cache; in the code the content property never
removes the stored fetch function, so every read of a lazily constructed
report invokes it again: two reads make two invocations (and each read
returns the freshly fetched text rather than a cached one). -/
theorem c4_lazy_content_refetches :
    (((CrashReport.mk_lazy (str "https://u") c4_fetch_func).content_get.2).content_get.2).fetch_calls = 2
    ∧ (((CrashReport.mk_lazy (str "https://u") c4_fetch_func).content_get.2).content_get.1
        = some (str "the fetched report text")) :=
  ⟨rfl, rfl⟩

/-- C5 counterexample: after the table header, a line that fails the grammar
but contains the substring States does not stop the scan: the parse of that
line raises, yet the record on the following line is still collected, so the
scan did not stop at the first grammar-failing line. -/
theorem c5_counterexample :
    (InstalledMod.parse (pyStrip (str "garbage States garbage")) =
      .error (str "invalid line: garbage States garbage"))
    ∧ CrashReport.mod_list (str "States\ngarbage States garbage\nUCHIJ a{1} [A] (a.jar)") =
      [{ modid := str "a", version := str "1", modname := str "A", filename := str "a.jar",
         errored := false, disabled := false }] :=
  ⟨by decide, by decide⟩

theorem modListScan_true_eq (ls : List (List Char)) :
    modListScan ls true = modListCollect ls := by
  induction ls with
  | nil => rfl
  | cons l rest ih =>
    unfold modListScan modListCollect
    by_cases h : containsSub l (str "States") = true
    · simp [h, ih]
    · rw [Bool.not_eq_true] at h
      cases hp : InstalledMod.parse (pyStrip l) with
      | error e => simp [h, hp]
      | ok o => cases o <;> simp [h, hp, ih]

theorem modListScan_false_eq (ls : List (List Char)) :
    modListScan ls false =
      (match ls.dropWhile (fun l => !(containsSub l (str "States"))) with
       | [] => []
       | _ :: rest => modListCollect rest) := by
  induction ls with
  | nil => rfl
  | cons l rest ih =>
    by_cases h : containsSub l (str "States") = true
    · unfold modListScan
      simp [h, List.dropWhile_cons, modListScan_true_eq]
    · rw [Bool.not_eq_true] at h
      unfold modListScan
      simp [h, List.dropWhile_cons, ih]

/-- C5 as amended: capture still begins only after the first line containing
States, but a line containing States anywhere is always treated as a header
line, never parsed; among the other lines after the header, the first
grammar failure ends the table (excluded) and States-containing lines are
skipped with the scan continuing. -/
theorem c5_mod_list_scan_amended :
    (∀ content, CrashReport.mod_list content = mod_list_spec content)
    ∧ (∀ (ls : List (List Char)) (l : List Char) (e : List Char),
        containsSub l (str "States") = false →
        InstalledMod.parse (pyStrip l) = .error e →
        modListScan (l :: ls) true = [])
    ∧ (∀ (ls : List (List Char)) (l : List Char),
        containsSub l (str "States") = true →
        modListScan (l :: ls) true = modListScan ls true) := by
  refine ⟨?_, ?_, ?_⟩
  · intro content
    unfold CrashReport.mod_list mod_list_spec
    exact modListScan_false_eq (splitlines content)
  · intro ls l e h hp
    unfold modListScan
    simp [h, hp]
  · intro ls l h
    simp only [modListScan]
    simp [h]

/-- C5 witness: the amended statement applied at concrete values. -/
theorem c5_witness :
    (CrashReport.mod_list (str "States\nUCHIJ a{1} [A] (a.jar)") =
      mod_list_spec (str "States\nUCHIJ a{1} [A] (a.jar)"))
    ∧ modListScan [str "no grammar here"] true = []
    ∧ modListScan [str "States", str "x"] true = modListScan [str "x"] true :=
  ⟨c5_mod_list_scan_amended.1 _,
   c5_mod_list_scan_amended.2.1 [] _ (str "invalid line: no grammar here") (by decide) (by decide),
   c5_mod_list_scan_amended.2.2 [str "x"] _ (by decide)⟩

/-- C6: a mod-state line that matches the grammar, whose modid is neither
FML nor Forge and whose filename is not minecraft.jar, always parses (no
error, no dropped record) to exactly the record of its groups, with the
errored flag true iff E occurs in the status group and the disabled flag
true iff D occurs in it. -/
theorem c6_parse_regular_record (L : List Char) (m : ModLineMatch)
    (hm : matchModLine L = some m)
    (h1 : m.modid ≠ str "FML") (h2 : m.modid ≠ str "Forge")
    (h3 : m.filename ≠ str "minecraft.jar") :
    InstalledMod.parse L =
      .ok (some { modid := m.modid, version := m.version, modname := m.modname,
                  filename := m.filename,
                  errored := decide ('E' ∈ m.status),
                  disabled := decide ('D' ∈ m.status) }) := by
  unfold InstalledMod.parse
  rw [hm]
  have hE : m.status.contains 'E' = decide ('E' ∈ m.status) := by simp [List.elem_iff]
  have hD : m.status.contains 'D' = decide ('D' ∈ m.status) := by simp [List.elem_iff]
  simp [h1, h2, h3, hE, hD]

/-- C6 witness: a concrete matching line with an E flag parses to its
record. -/
theorem c6_witness :
    InstalledMod.parse (str "UCHIJE CoolMod{1.2} [Cool Mod] (cool.jar)") =
      .ok (some { modid := str "CoolMod", version := str "1.2", modname := str "Cool Mod",
                  filename := str "cool.jar",
                  errored := decide ('E' ∈ str "UCHIJE"),
                  disabled := decide ('D' ∈ str "UCHIJE") }) :=
  c6_parse_regular_record _
    { status := str "UCHIJE", modid := str "CoolMod", version := str "1.2",
      modname := str "Cool Mod", filename := str "cool.jar" }
    (by decide) (by decide) (by decide) (by decide)

/-- C7: the pastebin URL resolves to its raw form, a pastebin URL with a
query string is flagged suspicious, the paste.ee p-path resolves to the
d-path, and every URL whose parsed hostname is gist.github.com is rejected
outright. -/
theorem c7_url_resolver :
    classifyUrl (str "https://pastebin.com/abc123") =
      .download (str "https://pastebin.com/raw/abc123")
    ∧ classifyUrl (str "https://pastebin.com/abc123?x=1") = .suspicious
    ∧ classifyUrl (str "https://paste.ee/p/ID/1") = .download (str "https://paste.ee/d/ID/1")
    ∧ (∀ url : List Char, (urlparse url).hostname = str "gist.github.com" →
        classifyUrl url = .gistRejected) := by
  refine ⟨by decide, by decide, by decide, ?_⟩
  intro url hh
  simp only [classifyUrl]
  rw [hh]
  rfl

/-- C7 witness: a concrete gist URL is rejected. -/
theorem c7_witness :
    classifyUrl (str "https://gist.github.com/u/id") = .gistRejected :=
  c7_url_resolver.2.2.2 _ (by decide)

set_option maxRecDepth 8000 in
/-- C8 counterexample: a report with no side marker (side BOTH, not a
modern-Java variant) but a recent Java version still gets a lwjgl3ify
filename listed as missing, refuting the only-when-modern-side claim. -/
theorem c8_counterexample :
    Helper.analyze c8_resolver c8_formdata (str "u") c8_content =
      .ok [str "# Primitive Automated Analysis of Crash Report u",
           str "<details><summary>Stacktrace</summary>some.Exception</details>",
           str "<details><summary>Missing mods</summary>",
           str "* lwjgl3ify-2.0.jar",
           str "</details>"]
    ∧ CrashReport.side c8_content = Side.BOTH :=
  ⟨rfl, rfl⟩

theorem missingLines_line_eq {f g : List Char}
    (h : str "* " ++ f = str "* " ++ g) : f = g :=
  List.append_cancel_left h

/-- C8 as amended: a filename containing healer or codechickenlib
(case-insensitively) never appears in the missing-mods lines, for any
missing set and any Java recency; a filename containing lwjgl3ify appears
only when the report Java version is recent (is_recent_java), which is what
the code tests; this coincides with the modern-Java side variants, since
those side values imply a recent Java version. -/
theorem c8_missing_filter :
    (∀ (b : Bool) (missing : List (List Char)) (f : List Char),
        (containsSub (pyLower f) (str "healer") = true ∨
         containsSub (pyLower f) (str "codechickenlib") = true) →
        (str "* " ++ f) ∉ missingLines b missing)
    ∧ (∀ (b : Bool) (missing : List (List Char)) (f : List Char),
        (str "* " ++ f) ∈ missingLines b missing →
        containsSub (pyLower f) (str "lwjgl3ify") = true → b = true)
    ∧ (∀ content, (CrashReport.side content = Side.CLIENT_JAVA9 ∨
        CrashReport.side content = Side.SERVER_JAVA9) →
        CrashReport.is_recent_java content = true) := by
  refine ⟨?_, ?_, ?_⟩
  · intro b missing f hf
    induction missing with
    | nil => simp [missingLines]
    | cons x rest ih =>
      simp only [missingLines, List.filterMap_cons] at ih ⊢
      split
      · exact ih
      · rename_i o y heq
        split at heq
        · cases heq
        · split at heq
          · cases heq
          · cases heq
            intro hmem
            rcases List.mem_cons.mp hmem with heq2 | hmem2
            · have hfx : f = x := missingLines_line_eq heq2
              subst hfx
              rename_i hno _
              rcases hf with h1 | h1 <;> simp [h1] at hno
            · exact ih hmem2
  · intro b missing f hmem hl
    induction missing with
    | nil => simp [missingLines] at hmem
    | cons x rest ih =>
      simp only [missingLines, List.filterMap_cons] at hmem
      split at hmem
      · exact ih hmem
      · rename_i o y heq
        split at heq
        · cases heq
        · split at heq
          · cases heq
          · cases heq
            rcases List.mem_cons.mp hmem with heq2 | hmem2
            · have hfx : f = x := missingLines_line_eq heq2
              subst hfx
              rename_i hskip
              rw [Bool.not_eq_true, Bool.and_eq_false_iff] at hskip
              rcases hskip with h1 | h1
              · simpa using h1
              · exact absurd hl (by simp [h1])
            · exact ih hmem2
  · intro content h
    by_cases hr : CrashReport.is_recent_java content = true
    · exact hr
    · exfalso
      rw [Bool.not_eq_true] at hr
      unfold CrashReport.side at h
      rw [hr] at h
      rcases h with h | h <;> split at h <;> (try split at h) <;> simp_all

/-- C8 witness: the amended statement applied at concrete values. -/
theorem c8_witness :
    ((str "* healer-1.jar") ∉ missingLines true [str "healer-1.jar"])
    ∧ (true = true)
    ∧ CrashReport.is_recent_java (str "map_client.txt Java Version: 17.0.1,") = true :=
  ⟨c8_missing_filter.1 true _ _ (Or.inl (by decide)),
   c8_missing_filter.2.1 true [str "lwjgl3ify-2.0.jar"] (str "lwjgl3ify-2.0.jar")
     (by decide) (by decide),
   c8_missing_filter.2.2 _ (Or.inl (by decide))⟩

theorem analyze_empty_official (gom : OfficialResolver)
    (fd : List (List Char × List Char)) (url content : List Char)
    (htr : CrashReport.main_stack_trace content ≠ [])
    (hml : Helper.get_mod_list gom fd (CrashReport.side content) = []) :
    Helper.analyze gom fd url content = .ok (analyzeUpToStackTrace url content) := by
  cases h : CrashReport.main_stack_trace content with
  | nil => exact absurd h htr
  | cons f rest =>
    simp only [Helper.analyze, analyzeUpToStackTrace, h, hml, List.headD_cons,
      List.isEmpty_nil, if_true]
    split
    · rfl
    · split
      · rfl
      · rfl

/-- C9: resolving the official list degrades to an empty list on every
failure (missing pack-version field, whitespace-only field, resolver error),
and an empty official list makes analyze return exactly the pre-diff
analysis (header, truncation warning, early heuristics and the stack-trace
block): the diff steps are skipped and everything before them is kept. -/
theorem c9_official_list_failure_degrades :
    (∀ (gom : OfficialResolver) (fd : List (List Char × List Char)) (side : Side),
        lookupKey fd (str "Your Pack Version") = none →
        Helper.get_mod_list gom fd side = [])
    ∧ (∀ (gom : OfficialResolver) (fd : List (List Char × List Char)) (side : Side)
        (v : List Char), lookupKey fd (str "Your Pack Version") = some v →
        pySplitWs v = [] → Helper.get_mod_list gom fd side = [])
    ∧ (∀ (gom : OfficialResolver) (fd : List (List Char × List Char)) (side : Side)
        (v tok : List Char) (toks : List (List Char)) (e : List Char),
        lookupKey fd (str "Your Pack Version") = some v →
        pySplitWs v = tok :: toks →
        gom (pyLower (pyStrip tok)) side = .error e →
        Helper.get_mod_list gom fd side = [])
    ∧ (∀ (gom : OfficialResolver) (fd : List (List Char × List Char)) (url content : List Char),
        CrashReport.main_stack_trace content ≠ [] →
        Helper.get_mod_list gom fd (CrashReport.side content) = [] →
        Helper.analyze gom fd url content = .ok (analyzeUpToStackTrace url content)) := by
  refine ⟨?_, ?_, ?_, analyze_empty_official⟩
  · intro gom fd side h
    simp [Helper.get_mod_list, h]
  · intro gom fd side v h1 h2
    simp [Helper.get_mod_list, h1, h2]
  · intro gom fd side v tok toks e h1 h2 h3
    simp [Helper.get_mod_list, h1, h2, h3]

/-- C9 witness: the degradation applied at concrete values for each failure
mode and the diff-skipping equality at a concrete report. -/
theorem c9_witness :
    (Helper.get_mod_list (fun _ _ => .ok [{ modname := str "m", filename := str "f.jar" }])
        [] Side.BOTH = [])
    ∧ (Helper.get_mod_list (fun _ _ => .ok [{ modname := str "m", filename := str "f.jar" }])
        [(str "Your Pack Version", str "   ")] Side.BOTH = [])
    ∧ (Helper.get_mod_list (fun _ _ => .error (str "boom"))
        [(str "Your Pack Version", str "2.6.0 stable")] Side.BOTH = [])
    ∧ (Helper.analyze (fun _ _ => .error (str "boom")) [] (str "u")
        (str "h1\nh2\nh3\nh4\nh5\nh6\ntrace line\n") =
        .ok (analyzeUpToStackTrace (str "u") (str "h1\nh2\nh3\nh4\nh5\nh6\ntrace line\n"))) :=
  ⟨c9_official_list_failure_degrades.1 _ _ _ (by decide),
   c9_official_list_failure_degrades.2.1 _ _ _ (str "   ") (by decide) (by decide),
   c9_official_list_failure_degrades.2.2.1 _ _ _ (str "2.6.0 stable") (str "2.6.0")
     [str "stable"] (str "boom") (by decide) (by decide) rfl,
   c9_official_list_failure_degrades.2.2.2 _ _ _ _ (by decide) (by decide)⟩

/-- C10: when a content contains both the client and the server map marker,
side detection returns the client-side result (further refined by the Java
generation): the client marker check comes first and wins. -/
theorem c10_client_marker_precedence (content : List Char)
    (hc : containsSub content (str "map_client.txt") = true)
    (hs : containsSub content (str "map_server.txt") = true) :
    CrashReport.side content =
      (if CrashReport.is_recent_java content then Side.CLIENT_JAVA9 else Side.CLIENT) := by
  simp [CrashReport.side, hc]

/-- C10 witness: a concrete content with both markers and a legacy Java
version resolves to the client side. -/
theorem c10_witness :
    CrashReport.side (str "map_client.txt map_server.txt Java Version: 1.8.0_311,") =
      (if CrashReport.is_recent_java (str "map_client.txt map_server.txt Java Version: 1.8.0_311,")
        then Side.CLIENT_JAVA9 else Side.CLIENT) :=
  c10_client_marker_precedence _ (by decide) (by decide)
